import Mathlib

/-!
# net/http server probe: entry/return correlation and traceparent extraction

A shallow embedding of `pkg/instrumentors/bpf/net/http/server/bpf/probe.bpf.c`:
the reader `extract_context_from_req_headers`, the entry probe
`uprobe_ServerMux_ServeHTTP` and the return probe
`uprobe_ServerMux_ServeHTTP_Returns`.

Conventions.
* Target memory is a partial map from addresses to bytes; `bpf_probe_read`
  either copies the whole range or, when any byte is unreadable, leaves the
  destination zero-filled (the kernel helper clears the destination on failure).
  The probes never look at the helper's return value.
* Pointers and `u64` values are naturals below `2 ^ 64`; pointer arithmetic wraps.
* The layouts of `struct go_string` and `struct map_bucket` are declared in
  `go_types.h`, outside the translated file; a read of `sizeof` such a struct is
  therefore a decoded view of target memory (`Mem.str_at`, `Mem.bucket_at`).
* Helpers declared in the included headers (`w3c_string_to_span_context`,
  `generate_span_context`, `generate_random_bytes`) and the verdicts of the two
  scratch-slot lookups are fields of `Env`; `bpf_memcmp` and `copy_byte_arrays`
  are byte equality and byte copy.
* The reader returns, next to its result, the log of the helper calls it made, so
  that "reads no bucket", "copies one bucket" and "never calls the decoder" are
  statements about that log.
-/

namespace HttpServerProbe

/-! ## Constants -/

def MAX_SIZE : Nat := 100
def MAX_CONCURRENT : Nat := 50
def W3C_KEY_LENGTH : Nat := 11
def W3C_VAL_LENGTH : Nat := 55

/-- Modelled from the spec: `TRACE_ID_SIZE` of `span_context.h` (a trace id is 16 bytes). -/
def TRACE_ID_SIZE : Nat := 16

/-- Modelled from the spec: `SPAN_ID_SIZE` of `span_context.h` (a span id is 8 bytes). -/
def SPAN_ID_SIZE : Nat := 8

/-- The modulus of 64-bit pointers and `u64` values. -/
def U64 : Nat := 2 ^ 64

/-- Addition on `void*` / `u64`, wrapping at 64 bits. -/
def ptr_add (p off : Nat) : Nat := (p + off) % U64

/-! ## Data model -/

/-- Modelled from the spec: `struct span_context` of `span_context.h`, a trace id
(16 bytes) and a span id (8 bytes). -/
structure span_context where
  TraceID : List Nat
  SpanID : List Nat
  deriving DecidableEq

/-- The record `struct http_request_t`. -/
structure http_request_t where
  start_time : Nat
  end_time : Nat
  method : List Nat
  path : List Nat
  sc : span_context
  psc : span_context
  deriving DecidableEq

/-- The all-zero span context. -/
def zero_span_context : span_context :=
  { TraceID := List.replicate TRACE_ID_SIZE 0, SpanID := List.replicate SPAN_ID_SIZE 0 }

/-- The value of `struct http_request_t httpReq = {}`. -/
def zero_http_request : http_request_t :=
  { start_time := 0, end_time := 0,
    method := List.replicate MAX_SIZE 0, path := List.replicate MAX_SIZE 0,
    sc := zero_span_context, psc := zero_span_context }

/-- Modelled from the spec: `struct go_string` of `go_types.h`, the descriptor
(pointer + length) of a string of the target runtime. -/
structure go_string where
  str : Nat
  len : Int
  deriving DecidableEq

/-- Modelled from the spec: the value slot of a bucket (`go_types.h`); the reader
uses only its `array` field, the pointer to the first string of the value. -/
structure go_slice where
  array : Nat

/-- Modelled from the spec: `struct map_bucket` of `go_types.h`, the eight-slot
bucket of the target runtime: per-slot marker bytes, key descriptors and values. -/
structure map_bucket where
  tophash : Nat → Nat
  keys : Nat → go_string
  values : Nat → go_slice

/-- The bucket a failed `bpf_probe_read` leaves in the scratch buffer. -/
def zero_bucket : map_bucket :=
  { tophash := fun _ => 0, keys := fun _ => { str := 0, len := 0 },
    values := fun _ => { array := 0 } }

/-- Target-process memory: readable bytes, and the decoded views of the two
structs whose layout is declared in `go_types.h`. -/
structure Mem where
  byte : Nat → Option Nat
  str_at : Nat → Option go_string
  bucket_at : Nat → Option map_bucket

/-- Everything the probes take from outside this file: the injected field
offsets, the size of a bucket, the verdicts of the two per-CPU scratch-slot
lookups, the trace-context decoder and the random sources. -/
structure Env where
  method_ptr_pos : Nat
  url_ptr_pos : Nat
  path_ptr_pos : Nat
  ctx_ptr_pos : Nat
  headers_ptr_pos : Nat
  sizeof_map_bucket : Nat
  bucket_storage_ok : Bool
  parent_storage_ok : Bool
  w3c_string_to_span_context : List Nat → span_context
  generate_span_context : span_context
  generate_random_bytes : Nat → List Nat
  spans_max_entries : Nat

/-! ## Reading target memory -/

/-- All `n` bytes from `a` on, or nothing when one of them is unreadable. -/
def read_bytes (m : Mem) : Nat → Nat → Option (List Nat)
  | _, 0 => some []
  | a, n + 1 =>
    match m.byte a, read_bytes m (a + 1) n with
    | some b, some bs => some (b % 256 :: bs)
    | _, _ => none

/-- The destination of `bpf_probe_read(dst, size, src)` after the call. -/
def bpf_probe_read (m : Mem) (size src : Nat) : List Nat :=
  (read_bytes m src size).getD (List.replicate size 0)

/-- Little-endian value of a byte string. -/
def le_value : List Nat → Nat
  | [] => 0
  | b :: bs => b + 256 * le_value bs

/-- A `bpf_probe_read` of 8 bytes into a `u64` or a pointer. -/
def probe_read_u64 (m : Mem) (src : Nat) : Nat := le_value (bpf_probe_read m 8 src)

/-- A `bpf_probe_read` of one byte into an `unsigned char`. -/
def probe_read_u8 (m : Mem) (src : Nat) : Nat := le_value (bpf_probe_read m 1 src)

/-- A `bpf_probe_read` of `sizeof(struct go_string)` bytes. -/
def probe_read_go_string (m : Mem) (src : Nat) : go_string :=
  (m.str_at src).getD { str := 0, len := 0 }

/-- A `bpf_probe_read` of `sizeof(struct map_bucket)` bytes into the scratch buffer. -/
def probe_read_bucket (m : Mem) (src : Nat) : map_bucket :=
  (m.bucket_at src).getD zero_bucket

/-- Overwrite the first bytes of a destination buffer. -/
def write_into (dst bytes : List Nat) : List Nat := bytes ++ dst.drop bytes.length

/-- Modelled from the spec: `bpf_memcmp` of `utils.h`, the byte-equality primitive:
true exactly when the first `size` bytes agree. -/
def bpf_memcmp (s1 s2 : List Nat) (size : Nat) : Bool := decide (s1.take size = s2.take size)

/-- Modelled from the spec: `copy_byte_arrays(src, dst, size)` of `utils.h`: the first
`size` bytes of `dst` become those of `src`. -/
def copy_byte_arrays (src dst : List Nat) (size : Nat) : List Nat :=
  write_into dst (src.take size)

/-- The bytes of the literal "traceparent". -/
def traceparent_lower : List Nat := [116, 114, 97, 99, 101, 112, 97, 114, 101, 110, 116]

/-- The bytes of the literal "Traceparent". -/
def traceparent_upper : List Nat := [84, 114, 97, 99, 101, 112, 97, 114, 101, 110, 116]

/-! ## The reader -/

/-- What the reader does to the outside world, in order. -/
inductive Event where
  | probe_read (size src : Nat)
  | probe_read_go_string (src : Nat)
  | probe_read_bucket (src : Nat)
  | lookup_bucket_storage
  | lookup_parent_storage
  | w3c_decode (raw : List Nat)
  deriving DecidableEq

/-- The expression `1 << log_2_bucket_count`: both operands are promoted to the
32-bit `int`, so this is a 32-bit shift of 1, kept as its 32-bit pattern. For a count
of 32 or more C leaves the shift undefined; the 32-bit shift instruction the
expression compiles to uses the low five bits of the count, and so does this
definition (for counts up to 31 the mask changes nothing). -/
def shl_int (b : Nat) : Nat := (1 <<< (b % 32)) % 2 ^ 32

/-- Conversion of a 32-bit `int` pattern to `u64` (sign extension). -/
def int_to_u64 (x : Nat) : Nat := if x < 2 ^ 31 then x else x + (2 ^ 64 - 2 ^ 32)

/-- The loop `for (u64 i=0; i<8; i++)` over the slots of the copied bucket.
`none` as second component: the loop ran to its end; `some r`: the function
returned `r` from inside the loop. -/
def scan_slots (env : Env) (m : Mem) (b : map_bucket) :
    List Nat → List Event × Option (Option span_context)
  | [] => ([], none)
  | i :: rest =>
    if b.tophash i = 0 then scan_slots env m b rest
    else if (b.keys i).len ≠ W3C_KEY_LENGTH then scan_slots env m b rest
    else
      let current_header_key := bpf_probe_read m W3C_KEY_LENGTH (b.keys i).str
      let e_key := Event.probe_read W3C_KEY_LENGTH (b.keys i).str
      if (!bpf_memcmp current_header_key traceparent_lower W3C_KEY_LENGTH
          && !bpf_memcmp current_header_key traceparent_upper W3C_KEY_LENGTH) then
        (e_key :: (scan_slots env m b rest).1, (scan_slots env m b rest).2)
      else
        let traceparent_header_value_ptr := (b.values i).array
        let go_str := probe_read_go_string m traceparent_header_value_ptr
        let e_str := Event.probe_read_go_string traceparent_header_value_ptr
        if go_str.len ≠ W3C_VAL_LENGTH then
          (e_key :: e_str :: (scan_slots env m b rest).1, (scan_slots env m b rest).2)
        else
          let traceparent_header_value := bpf_probe_read m W3C_VAL_LENGTH go_str.str
          let e_val := Event.probe_read W3C_VAL_LENGTH go_str.str
          if env.parent_storage_ok = false then
            ([e_key, e_str, e_val, Event.lookup_parent_storage], some none)
          else
            ([e_key, e_str, e_val, Event.lookup_parent_storage,
              Event.w3c_decode traceparent_header_value],
             some (some (env.w3c_string_to_span_context traceparent_header_value)))

/-- The loop `for (u64 j=0; j<bucket_count; j++)`, started at `j` with `n`
iterations left. -/
def scan_buckets (env : Env) (m : Mem) (header_buckets : Nat) :
    Nat → Nat → List Event × Option span_context
  | _, 0 => ([], none)
  | j, n + 1 =>
    let src := ptr_add header_buckets ((j * env.sizeof_map_bucket) % U64)
    let slots := scan_slots env m (probe_read_bucket m src) (List.range 8)
    match slots.2 with
    | some r => (Event.probe_read_bucket src :: slots.1, r)
    | none =>
      (Event.probe_read_bucket src :: slots.1 ++ (scan_buckets env m header_buckets (j + 1) n).1,
       (scan_buckets env m header_buckets (j + 1) n).2)

/-- The function `extract_context_from_req_headers`: the log of its helper calls and
its return value (`none` is NULL). -/
def extract_context_from_req_headers (env : Env) (m : Mem) (headers_ptr_ptr : Nat) :
    List Event × Option span_context :=
  let headers_ptr := probe_read_u64 m headers_ptr_ptr
  let headers_count := probe_read_u64 m headers_ptr
  let e0 := [Event.probe_read 8 headers_ptr_ptr, Event.probe_read 8 headers_ptr]
  if headers_count = 0 then (e0, none)
  else
    let log_2_bucket_count := probe_read_u8 m (ptr_add headers_ptr 9)
    let bucket_count := int_to_u64 (shl_int log_2_bucket_count)
    let header_buckets := probe_read_u64 m (ptr_add headers_ptr 16)
    let e1 := e0 ++ [Event.probe_read 1 (ptr_add headers_ptr 9),
                     Event.probe_read 8 (ptr_add headers_ptr 16),
                     Event.lookup_bucket_storage]
    if env.bucket_storage_ok = false then (e1, none)
    else
      let bucket_count := if bucket_count ≥ 2 then 1 else bucket_count
      let scan := scan_buckets env m header_buckets 0 bucket_count
      (e1 ++ scan.1, scan.2)

/-! ## The kernel hash map -/

/-- The helper `bpf_map_lookup_elem` on a hash map: the value stored under `key`. -/
def bpf_map_lookup_elem {α : Type} : List (Nat × α) → Nat → Option α
  | [], _ => none
  | (k, v) :: rest, key => if k = key then some v else bpf_map_lookup_elem rest key

/-- The helper `bpf_map_delete_elem` on a hash map. -/
def bpf_map_delete_elem {α : Type} (t : List (Nat × α)) (key : Nat) : List (Nat × α) :=
  t.filter (fun e => decide (e.1 ≠ key))

/-- The helper `bpf_map_update_elem` with flags 0 on a hash map of `max_entries`
entries: an existing key is overwritten, a new key is added while there is room,
and otherwise the call fails (`none`) and the map is left as it was. -/
def bpf_map_update_elem {α : Type} (max_entries : Nat) (t : List (Nat × α)) (key : Nat)
    (v : α) : Option (List (Nat × α)) :=
  if (bpf_map_lookup_elem t key).isSome then
    some (t.map (fun e => if e.1 = key then (key, v) else e))
  else if t.length < max_entries then some (t ++ [(key, v)])
  else none

/-! ## The probes -/

/-- The maps the probes share, and the records pushed to the perf event array. -/
structure State where
  context_to_http_events : List (Nat × http_request_t)
  spans_in_progress : List (Nat × span_context)
  events : List http_request_t

/-- The key `ctx_iface` both probes compute from the request pointer. -/
def read_ctx_iface (env : Env) (m : Mem) (req_ptr : Nat) : Nat :=
  probe_read_u64 m (ptr_add (ptr_add req_ptr env.ctx_ptr_pos) 8)

/-- A bounded string copy of the entry probe: `size = 100 < len ? 100 : len`, then
`bpf_probe_read(&field, size, ptr)` into the zeroed field. -/
def read_field (m : Mem) (str_ptr str_len : Nat) : List Nat :=
  let size := if MAX_SIZE < str_len then MAX_SIZE else str_len
  write_into (List.replicate MAX_SIZE 0) (bpf_probe_read m size str_ptr)

/-- The record `httpReq` as the entry probe has built it when it reaches
`bpf_map_update_elem`. -/
def build_http_request (env : Env) (m : Mem) (req_ptr now : Nat) : http_request_t :=
  let method_ptr := probe_read_u64 m (ptr_add req_ptr env.method_ptr_pos)
  let method_len := probe_read_u64 m (ptr_add req_ptr (ptr_add env.method_ptr_pos 8))
  let url_ptr := probe_read_u64 m (ptr_add req_ptr env.url_ptr_pos)
  let path_ptr := probe_read_u64 m (ptr_add url_ptr env.path_ptr_pos)
  let path_len := probe_read_u64 m (ptr_add url_ptr (ptr_add env.path_ptr_pos 8))
  let httpReq : http_request_t :=
    { zero_http_request with
      start_time := now
      method := read_field m method_ptr method_len
      path := read_field m path_ptr path_len }
  match (extract_context_from_req_headers env m (ptr_add req_ptr env.headers_ptr_pos)).2 with
  | some parent_ctx =>
    { httpReq with
      psc := parent_ctx
      sc := { TraceID := copy_byte_arrays parent_ctx.TraceID httpReq.sc.TraceID TRACE_ID_SIZE
              SpanID := write_into httpReq.sc.SpanID (env.generate_random_bytes SPAN_ID_SIZE) } }
  | none => { httpReq with sc := env.generate_span_context }

/-- The entry probe `uprobe_ServerMux_ServeHTTP`; neither update's result is checked. -/
def uprobe_ServerMux_ServeHTTP (env : Env) (m : Mem) (req_ptr now : Nat) (s : State) : State :=
  let httpReq := build_http_request env m req_ptr now
  let ctx_iface := read_ctx_iface env m req_ptr
  { s with
    context_to_http_events :=
      (bpf_map_update_elem MAX_CONCURRENT s.context_to_http_events ctx_iface httpReq).getD
        s.context_to_http_events
    spans_in_progress :=
      (bpf_map_update_elem env.spans_max_entries s.spans_in_progress ctx_iface httpReq.sc).getD
        s.spans_in_progress }

/-- The record the return probe pushes: the copy of the looked-up entry, or the
zeroed local when the lookup returned NULL, with `end_time` set. -/
def returned_record (now : Nat) (found : Option http_request_t) : http_request_t :=
  { found.getD zero_http_request with end_time := now }

/-- The return probe `uprobe_ServerMux_ServeHTTP_Returns`. -/
def uprobe_ServerMux_ServeHTTP_Returns (env : Env) (m : Mem) (req_ptr now : Nat)
    (s : State) : State :=
  let ctx_iface := read_ctx_iface env m req_ptr
  let httpReq := returned_record now (bpf_map_lookup_elem s.context_to_http_events ctx_iface)
  { context_to_http_events := bpf_map_delete_elem s.context_to_http_events ctx_iface
    spans_in_progress := bpf_map_delete_elem s.spans_in_progress ctx_iface
    events := s.events ++ [httpReq] }

/-! ## Concrete memories -/

/-- Byte memory given by segments `(base, bytes)`; everything else is unreadable. -/
def bytes_of (segs : List (Nat × List Nat)) (a : Nat) : Option Nat :=
  match segs with
  | [] => none
  | (base, bs) :: rest =>
    if base ≤ a ∧ a < base + bs.length then bs.get? (a - base) else bytes_of rest a

/-- The eight little-endian bytes of a small value. -/
def u64_bytes (x : Nat) : List Nat :=
  [x % 256, x / 256 % 256, x / 65536 % 256, 0, 0, 0, 0, 0]

/-! ## Vocabulary for statements about the reader -/

/-- The header pointer the reader loads from `headers_ptr_ptr`. -/
def headers_ptr_of (m : Mem) (headers_ptr_ptr : Nat) : Nat := probe_read_u64 m headers_ptr_ptr

/-- The element count the reader loads from the map header. -/
def headers_count_of (m : Mem) (headers_ptr_ptr : Nat) : Nat :=
  probe_read_u64 m (headers_ptr_of m headers_ptr_ptr)

/-- The bucket-count exponent byte the reader loads from the map header. -/
def log_2_bucket_count_of (m : Mem) (headers_ptr_ptr : Nat) : Nat :=
  probe_read_u8 m (ptr_add (headers_ptr_of m headers_ptr_ptr) 9)

/-- The buckets pointer the reader loads from the map header. -/
def header_buckets_of (m : Mem) (headers_ptr_ptr : Nat) : Nat :=
  probe_read_u64 m (ptr_add (headers_ptr_of m headers_ptr_ptr) 16)

/-- The scratch buffer after the copy of the bucket at offset 0. -/
def first_bucket (m : Mem) (headers_ptr_ptr : Nat) : map_bucket :=
  probe_read_bucket m (header_buckets_of m headers_ptr_ptr)

/-- Slot `i` holds the key "traceparent" or "Traceparent" in target memory. -/
def key_matches (m : Mem) (b : map_bucket) (i : Nat) : Bool :=
  decide (read_bytes m (b.keys i).str W3C_KEY_LENGTH = some traceparent_lower)
    || decide (read_bytes m (b.keys i).str W3C_KEY_LENGTH = some traceparent_upper)

/-- The value string of slot `i` is readable and has length exactly 55. -/
def value_len_ok (m : Mem) (b : map_bucket) (i : Nat) : Bool :=
  match m.str_at (b.values i).array with
  | some gs => decide (gs.len = W3C_VAL_LENGTH)
  | none => false

/-- The four tests of slot `i`: not marked empty, key length 11, key bytes one of
the two spellings, value length 55. -/
def slot_matches (m : Mem) (b : map_bucket) (i : Nat) : Bool :=
  decide (b.tophash i ≠ 0) && decide ((b.keys i).len = W3C_KEY_LENGTH)
    && key_matches m b i && value_len_ok m b i

/-- The 55 bytes the reader copies for slot `i` before decoding. -/
def slot_value (m : Mem) (b : map_bucket) (i : Nat) : List Nat :=
  bpf_probe_read m W3C_VAL_LENGTH (probe_read_go_string m (b.values i).array).str

/-- Whether a step of the reader succeeded: a read of target memory found all its
bytes, a scratch-slot lookup returned a slot. -/
def step_ok (env : Env) (m : Mem) : Event → Bool
  | Event.probe_read size src => (read_bytes m src size).isSome
  | Event.probe_read_go_string src => (m.str_at src).isSome
  | Event.probe_read_bucket src => (m.bucket_at src).isSome
  | Event.lookup_bucket_storage => env.bucket_storage_ok
  | Event.lookup_parent_storage => env.parent_storage_ok
  | Event.w3c_decode _ => true

/-- The source addresses of the bucket copies in a log. -/
def bucket_reads (log : List Event) : List Nat :=
  log.filterMap (fun e => match e with
    | Event.probe_read_bucket src => some src
    | _ => none)

/-- The inputs handed to the decoder in a log. -/
def decoder_calls (log : List Event) : List (List Nat) :=
  log.filterMap (fun e => match e with
    | Event.w3c_decode raw => some raw
    | _ => none)

/-- What a scan of the first bucket yields: the decoding of the copied value of the
lowest-indexed slot that passes the four tests, NULL when there is none or when the
span-context scratch slot is missing. -/
def first_bucket_result (env : Env) (m : Mem) (headers_ptr_ptr : Nat) : Option span_context :=
  ((List.range 8).find? (slot_matches m (first_bucket m headers_ptr_ptr))).bind (fun i =>
    if env.parent_storage_ok = false then none
    else some (env.w3c_string_to_span_context
      (slot_value m (first_bucket m headers_ptr_ptr) i)))

/-- The events of the reader up to and including the bucket scratch-slot lookup. -/
def header_events (m : Mem) (headers_ptr_ptr : Nat) : List Event :=
  [Event.probe_read 8 headers_ptr_ptr,
   Event.probe_read 8 (headers_ptr_of m headers_ptr_ptr),
   Event.probe_read 1 (ptr_add (headers_ptr_of m headers_ptr_ptr) 9),
   Event.probe_read 8 (ptr_add (headers_ptr_of m headers_ptr_ptr) 16),
   Event.lookup_bucket_storage]

/-! ## Sample data

A request at address 4096 (method descriptor at +0, URL pointer at +16, context
interface at +24, header map pointer at +40), its header map at 8192, the first
bucket at 12288, key strings at 16384 and 16400, value descriptors at 20480 and
20496, the 55 value bytes at 24576, a 120-byte method at 28672, the URL at 32768
and the 2-byte path at 36864. -/

/-- Field offsets, helpers and scratch slots of the sample runs; the decoder takes
the bytes at the trace-id and span-id positions as they are. -/
def env0 : Env :=
  { method_ptr_pos := 0, url_ptr_pos := 16, path_ptr_pos := 0, ctx_ptr_pos := 24,
    headers_ptr_pos := 40, sizeof_map_bucket := 336,
    bucket_storage_ok := true, parent_storage_ok := true,
    w3c_string_to_span_context := fun raw =>
      { TraceID := (raw.drop 3).take 16, SpanID := (raw.drop 36).take 8 },
    generate_span_context :=
      { TraceID := List.replicate 16 7, SpanID := List.replicate 8 9 },
    generate_random_bytes := fun n => List.replicate n 5,
    spans_max_entries := 50 }

/-- As `env0`, with the lookup of the bucket scratch slot returning NULL. -/
def env_no_bucket_slot : Env := { env0 with bucket_storage_ok := false }

/-- A bucket whose slot 0 holds "Traceparent" with the value descriptor at 20480. -/
def bucket_single : map_bucket :=
  { tophash := fun i => if i = 0 then 1 else 0,
    keys := fun i => if i = 0 then { str := 16384, len := 11 } else { str := 0, len := 0 },
    values := fun i => if i = 0 then { array := 20480 } else { array := 0 } }

/-- A bucket whose slot 0 holds "traceparent" with a 10-byte value and whose slot 1
holds "Traceparent" with a 55-byte value. -/
def bucket_pair : map_bucket :=
  { tophash := fun i => if i < 2 then 1 else 0,
    keys := fun i =>
      if i = 0 then { str := 16400, len := 11 }
      else if i = 1 then { str := 16384, len := 11 } else { str := 0, len := 0 },
    values := fun i =>
      if i = 0 then { array := 20496 }
      else if i = 1 then { array := 20480 } else { array := 0 } }

/-- A bucket whose slot 0 points to key bytes at an unmapped address and whose slot 1
holds "Traceparent" with a 55-byte value. -/
def bucket_lost_key : map_bucket :=
  { tophash := fun i => if i < 2 then 1 else 0,
    keys := fun i =>
      if i = 0 then { str := 99999, len := 11 }
      else if i = 1 then { str := 16384, len := 11 } else { str := 0, len := 0 },
    values := fun i => if i < 2 then { array := 20480 } else { array := 0 } }

/-- A bucket whose only used slot holds "traceparent" with a 10-byte value. -/
def bucket_short : map_bucket :=
  { tophash := fun i => if i = 0 then 1 else 0,
    keys := fun i => if i = 0 then { str := 16400, len := 11 } else { str := 0, len := 0 },
    values := fun i => if i = 0 then { array := 20496 } else { array := 0 } }

/-- The segments shared by the sample memories. -/
def base_segs : List (Nat × List Nat) :=
  [(4096, u64_bytes 28672 ++ u64_bytes 120 ++ u64_bytes 32768 ++ u64_bytes 0 ++ u64_bytes 77
            ++ u64_bytes 8192),
   (16384, traceparent_upper),
   (16400, traceparent_lower),
   (28672, List.replicate 120 65),
   (32768, u64_bytes 36864 ++ u64_bytes 2),
   (36864, [47, 120])]

/-- The map header: element count, flags byte, exponent byte `b`, buckets pointer. -/
def map_header (count b : Nat) : Nat × List Nat :=
  (8192, u64_bytes count ++ [0, b, 0, 0, 0, 0, 0, 0] ++ u64_bytes 12288)

/-- The 55 value bytes. -/
def value_seg : Nat × List Nat := (24576, List.replicate 55 48)

/-- A memory from byte segments and the bucket at 12288. -/
def mk_mem (segs : List (Nat × List Nat)) (bucket : map_bucket) : Mem :=
  { byte := bytes_of segs,
    str_at := fun a =>
      if a = 20480 then some { str := 24576, len := 55 }
      else if a = 20496 then some { str := 24576, len := 10 } else none,
    bucket_at := fun a => if a = 12288 then some bucket else none }

/-- Everything readable, one element, exponent byte `b`. -/
def sample_mem (b : Nat) : Mem := mk_mem (map_header 1 b :: value_seg :: base_segs) bucket_single

/-- As `sample_mem 0`, with both spellings of the key in the bucket. -/
def pair_mem : Mem := mk_mem (map_header 2 0 :: value_seg :: base_segs) bucket_pair

/-- As `sample_mem 0`, with only the short-valued "traceparent" in the bucket. -/
def short_mem : Mem := mk_mem (map_header 1 0 :: value_seg :: base_segs) bucket_short

/-- As `sample_mem 0`, with the 55 value bytes unreadable. -/
def no_value_mem : Mem := mk_mem (map_header 1 0 :: base_segs) bucket_single

/-- As `sample_mem 0`, with the exponent byte (and its neighbours) unreadable. -/
def no_exponent_mem : Mem :=
  mk_mem ((8192, u64_bytes 1) :: (8208, u64_bytes 12288) :: value_seg :: base_segs)
    bucket_single

/-- As `sample_mem 0`, with an unreadable key in slot 0 before the good slot 1. -/
def no_key_mem : Mem := mk_mem (map_header 2 0 :: value_seg :: base_segs) bucket_lost_key

/-- As `sample_mem 0`, with other bytes where the key of slot 0 points. -/
def other_key_mem : Mem :=
  mk_mem ((16384, List.replicate 11 88) :: map_header 1 0 :: value_seg :: base_segs)
    bucket_single

/-- As `sample_mem 0`, with the bucket unreadable. -/
def no_bucket_mem : Mem :=
  { sample_mem 0 with bucket_at := fun _ => none }

/-- As `sample_mem 0`, with element count zero. -/
def empty_map_mem : Mem := mk_mem (map_header 0 0 :: value_seg :: base_segs) bucket_single

/-- As `sample_mem 255`, with a second bucket behind the first. -/
def two_bucket_mem : Mem :=
  { sample_mem 255 with
    bucket_at := fun a =>
      if a = 12288 then some bucket_single
      else if a = 12624 then some bucket_pair else none }

/-- The parent context the sample decoder yields on the 55 value bytes. -/
def sample_parent : span_context :=
  { TraceID := List.replicate 16 48, SpanID := List.replicate 8 48 }

/-- No request in flight, nothing emitted. -/
def empty_state : State :=
  { context_to_http_events := [], spans_in_progress := [], events := [] }

/-- Fifty requests in flight under the keys 1000 .. 1049. -/
def full_state : State :=
  { context_to_http_events := (List.range 50).map (fun k => (1000 + k, zero_http_request)),
    spans_in_progress := [], events := [] }

/-! ## Lemmas on the hash map -/

theorem lookup_delete_self {α : Type} (t : List (Nat × α)) (key : Nat) :
    bpf_map_lookup_elem (bpf_map_delete_elem t key) key = none := by
  induction t with
  | nil => rfl
  | cons e rest ih =>
    obtain ⟨k, v⟩ := e
    by_cases hk : k = key
    · simpa [bpf_map_delete_elem, List.filter, hk] using ih
    · simpa [bpf_map_delete_elem, List.filter, hk, bpf_map_lookup_elem] using ih

theorem lookup_map_replace {α : Type} (t : List (Nat × α)) (key : Nat) (v : α)
    (h : (bpf_map_lookup_elem t key).isSome) :
    bpf_map_lookup_elem (t.map (fun e => if e.1 = key then (key, v) else e)) key = some v := by
  induction t with
  | nil => simp [bpf_map_lookup_elem] at h
  | cons e rest ih =>
    obtain ⟨k, w⟩ := e
    by_cases hk : k = key
    · rw [List.map_cons]
      simp only [hk, if_true]
      simp [bpf_map_lookup_elem]
    · simp only [bpf_map_lookup_elem, hk, if_false] at h
      rw [List.map_cons]
      simp only [hk, if_false]
      simpa [bpf_map_lookup_elem, hk] using ih h

theorem lookup_append_new {α : Type} (t : List (Nat × α)) (key : Nat) (v : α)
    (h : bpf_map_lookup_elem t key = none) :
    bpf_map_lookup_elem (t ++ [(key, v)]) key = some v := by
  induction t with
  | nil => simp [bpf_map_lookup_elem]
  | cons e rest ih =>
    obtain ⟨k, w⟩ := e
    by_cases hk : k = key
    · simp [bpf_map_lookup_elem, hk] at h
    · simp only [bpf_map_lookup_elem, hk, if_false] at h
      simpa [bpf_map_lookup_elem, hk] using ih h

theorem lookup_update_self {α : Type} (cap : Nat) (t t1 : List (Nat × α)) (key : Nat) (v : α)
    (h : bpf_map_update_elem cap t key v = some t1) :
    bpf_map_lookup_elem t1 key = some v := by
  unfold bpf_map_update_elem at h
  by_cases hs : (bpf_map_lookup_elem t key).isSome
  · rw [if_pos hs] at h
    cases h
    exact lookup_map_replace t key v hs
  · rw [if_neg hs] at h
    by_cases hl : t.length < cap
    · rw [if_pos hl] at h
      cases h
      apply lookup_append_new
      cases hq : bpf_map_lookup_elem t key with
      | none => rfl
      | some x => simp [hq] at hs
    · rw [if_neg hl] at h
      cases h

theorem update_full_new {α : Type} (cap : Nat) (t : List (Nat × α)) (key : Nat) (v : α)
    (hfull : t.length = cap) (hnew : bpf_map_lookup_elem t key = none) :
    bpf_map_update_elem cap t key v = none := by
  simp [bpf_map_update_elem, hnew, hfull]

theorem update_room {α : Type} (cap : Nat) (t : List (Nat × α)) (key : Nat) (v : α)
    (hroom : t.length < cap) : (bpf_map_update_elem cap t key v).isSome := by
  unfold bpf_map_update_elem
  by_cases hs : (bpf_map_lookup_elem t key).isSome
  · simp [hs]
  · simp [hs, hroom]

/-- When the table has room, or already holds the key, the entry probe leaves its
record under the key it computed. -/
theorem entry_stores (env : Env) (m : Mem) (req_ptr now : Nat) (s : State)
    (h : (bpf_map_update_elem MAX_CONCURRENT s.context_to_http_events
            (read_ctx_iface env m req_ptr) (build_http_request env m req_ptr now)).isSome) :
    bpf_map_lookup_elem
        (uprobe_ServerMux_ServeHTTP env m req_ptr now s).context_to_http_events
        (read_ctx_iface env m req_ptr)
      = some (build_http_request env m req_ptr now) := by
  cases hu : bpf_map_update_elem MAX_CONCURRENT s.context_to_http_events
      (read_ctx_iface env m req_ptr) (build_http_request env m req_ptr now) with
  | none => simp [hu] at h
  | some t1 =>
    have := lookup_update_self _ _ _ _ _ hu
    simpa [uprobe_ServerMux_ServeHTTP, hu] using this

/-! ## Correlation of entry and return -/

/-- C1: when the entry probe's insert under `id` succeeds with record `r`, the next
return probe for `id` pushes `r` with only `end_time` changed (to the clock at
return) and removes `id` from the table; a second return probe for `id` then
misses and pushes the zeroed record carrying its own `end_time`. -/
theorem begin_end_roundtrip (env : Env) (m m2 m3 : Mem) (req_ptr req2 req3 now now2 now3 : Nat)
    (s : State)
    (h_ins : (bpf_map_update_elem MAX_CONCURRENT s.context_to_http_events
            (read_ctx_iface env m req_ptr) (build_http_request env m req_ptr now)).isSome)
    (h2 : read_ctx_iface env m2 req2 = read_ctx_iface env m req_ptr)
    (h3 : read_ctx_iface env m3 req3 = read_ctx_iface env m req_ptr) :
    (uprobe_ServerMux_ServeHTTP_Returns env m2 req2 now2
        (uprobe_ServerMux_ServeHTTP env m req_ptr now s)).events
      = (uprobe_ServerMux_ServeHTTP env m req_ptr now s).events
          ++ [{ build_http_request env m req_ptr now with end_time := now2 }]
    ∧ bpf_map_lookup_elem
        (uprobe_ServerMux_ServeHTTP_Returns env m2 req2 now2
          (uprobe_ServerMux_ServeHTTP env m req_ptr now s)).context_to_http_events
        (read_ctx_iface env m req_ptr) = none
    ∧ (uprobe_ServerMux_ServeHTTP_Returns env m3 req3 now3
        (uprobe_ServerMux_ServeHTTP_Returns env m2 req2 now2
          (uprobe_ServerMux_ServeHTTP env m req_ptr now s))).events
      = (uprobe_ServerMux_ServeHTTP_Returns env m2 req2 now2
          (uprobe_ServerMux_ServeHTTP env m req_ptr now s)).events
          ++ [{ zero_http_request with end_time := now3 }] := by
  have hs := entry_stores env m req_ptr now s h_ins
  refine ⟨?_, ?_, ?_⟩
  · simp only [uprobe_ServerMux_ServeHTTP_Returns, h2, hs, returned_record, Option.getD_some]
  · simp only [uprobe_ServerMux_ServeHTTP_Returns, h2]
    exact lookup_delete_self _ _
  · have hd : bpf_map_lookup_elem
        (uprobe_ServerMux_ServeHTTP_Returns env m2 req2 now2
          (uprobe_ServerMux_ServeHTTP env m req_ptr now s)).context_to_http_events
        (read_ctx_iface env m req_ptr) = none := by
      simp only [uprobe_ServerMux_ServeHTTP_Returns, h2]
      exact lookup_delete_self _ _
    simp only [uprobe_ServerMux_ServeHTTP_Returns, h3, h2] at hd ⊢
    simp only [hd, returned_record, Option.getD_none]

/-- C2: with exactly `MAX_CONCURRENT` entries in the table and `id` not among its
keys, the entry probe's insert for `id` fails and the table is left exactly as it
was; the return probe for `id` that follows misses (pushes the zeroed record with
`end_time` set). -/
theorem full_table_insert_fails (env : Env) (m m2 : Mem) (req_ptr req2 now now2 : Nat)
    (s : State)
    (hfull : s.context_to_http_events.length = MAX_CONCURRENT)
    (hnew : bpf_map_lookup_elem s.context_to_http_events (read_ctx_iface env m req_ptr) = none)
    (h2 : read_ctx_iface env m2 req2 = read_ctx_iface env m req_ptr) :
    bpf_map_update_elem MAX_CONCURRENT s.context_to_http_events
        (read_ctx_iface env m req_ptr) (build_http_request env m req_ptr now) = none
    ∧ (uprobe_ServerMux_ServeHTTP env m req_ptr now s).context_to_http_events
        = s.context_to_http_events
    ∧ bpf_map_lookup_elem
        (uprobe_ServerMux_ServeHTTP env m req_ptr now s).context_to_http_events
        (read_ctx_iface env m2 req2) = none
    ∧ (uprobe_ServerMux_ServeHTTP_Returns env m2 req2 now2
        (uprobe_ServerMux_ServeHTTP env m req_ptr now s)).events
      = (uprobe_ServerMux_ServeHTTP env m req_ptr now s).events
          ++ [{ zero_http_request with end_time := now2 }] := by
  have hu := update_full_new MAX_CONCURRENT s.context_to_http_events
    (read_ctx_iface env m req_ptr) (build_http_request env m req_ptr now) hfull hnew
  have ht : (uprobe_ServerMux_ServeHTTP env m req_ptr now s).context_to_http_events
      = s.context_to_http_events := by
    simp [uprobe_ServerMux_ServeHTTP, hu]
  refine ⟨hu, ht, ?_, ?_⟩
  · rw [ht, h2]; exact hnew
  · simp only [uprobe_ServerMux_ServeHTTP_Returns, ht, h2, hnew, returned_record,
      Option.getD_none]

/-- C5: when `id` is not a key of the table at return, the return probe still pushes
exactly one record, whose `start_time` is 0, whose method and path bytes are all
zero, whose two span contexts are all-zero, and whose `end_time` is the clock at
return. -/
theorem miss_emits_zero_record (env : Env) (m : Mem) (req_ptr now : Nat) (s : State)
    (hmiss : bpf_map_lookup_elem s.context_to_http_events (read_ctx_iface env m req_ptr)
      = none) :
    ∃ r : http_request_t,
      (uprobe_ServerMux_ServeHTTP_Returns env m req_ptr now s).events = s.events ++ [r]
      ∧ r.start_time = 0
      ∧ r.method = List.replicate MAX_SIZE 0
      ∧ r.path = List.replicate MAX_SIZE 0
      ∧ r.sc = zero_span_context
      ∧ r.psc = zero_span_context
      ∧ r.end_time = now := by
  refine ⟨{ zero_http_request with end_time := now }, ?_, rfl, rfl, rfl, rfl, rfl, rfl⟩
  simp only [uprobe_ServerMux_ServeHTTP_Returns, hmiss, returned_record, Option.getD_none]

/-! ## Lemmas on memory reads -/

theorem read_bytes_length (m : Mem) (n : Nat) :
    ∀ (a : Nat) (l : List Nat), read_bytes m a n = some l → l.length = n := by
  induction n with
  | zero => intro a l h; simp [read_bytes] at h; simp [h]
  | succ n ih =>
    intro a l h
    unfold read_bytes at h
    cases hb : m.byte a with
    | none => simp [hb] at h
    | some b =>
      cases hr : read_bytes m (a + 1) n with
      | none => simp [hb, hr] at h
      | some bs =>
        simp only [hb, hr] at h
        cases h
        simp [ih (a + 1) bs hr]

theorem read_bytes_take (m : Mem) (n : Nat) :
    ∀ (a k : Nat) (l : List Nat), read_bytes m a n = some l → k ≤ n →
      read_bytes m a k = some (l.take k) := by
  induction n with
  | zero =>
    intro a k l h hk
    have hk0 : k = 0 := by omega
    subst hk0
    simp [read_bytes]
  | succ n ih =>
    intro a k l h hk
    cases k with
    | zero => simp [read_bytes]
    | succ k =>
      unfold read_bytes at h ⊢
      cases hb : m.byte a with
      | none => simp [hb] at h
      | some b =>
        cases hr : read_bytes m (a + 1) n with
        | none => simp [hb, hr] at h
        | some bs =>
          simp only [hb, hr] at h
          cases h
          simp [ih (a + 1) k bs hr (by omega)]

/-- The bounded copy of a readable string of length `n`: its first `min n 100` bytes,
then zeros up to 100. -/
theorem read_field_readable (m : Mem) (p n : Nat) (src : List Nat)
    (h : read_bytes m p n = some src) :
    read_field m p n
      = src.take (min n MAX_SIZE) ++ List.replicate (MAX_SIZE - min n MAX_SIZE) 0 := by
  have hlen := read_bytes_length m n p src h
  have hsz : (if MAX_SIZE < n then MAX_SIZE else n) = min n MAX_SIZE := by
    by_cases hc : MAX_SIZE < n
    · rw [if_pos hc]; omega
    · rw [if_neg hc]; omega
  have hr := read_bytes_take m n p (min n MAX_SIZE) src h (by omega)
  unfold read_field
  simp only [hsz, bpf_probe_read, hr, Option.getD_some, write_into]
  congr 1
  have hl : (List.take (min n MAX_SIZE) src).length = min n MAX_SIZE := by
    simp [hlen]
  rw [hl]
  simp [List.drop_replicate]

theorem build_method (env : Env) (m : Mem) (req_ptr now : Nat) :
    (build_http_request env m req_ptr now).method
      = read_field m (probe_read_u64 m (ptr_add req_ptr env.method_ptr_pos))
          (probe_read_u64 m (ptr_add req_ptr (ptr_add env.method_ptr_pos 8))) := by
  unfold build_http_request
  simp only
  split <;> rfl

theorem build_path (env : Env) (m : Mem) (req_ptr now : Nat) :
    (build_http_request env m req_ptr now).path
      = read_field m
          (probe_read_u64 m
            (ptr_add (probe_read_u64 m (ptr_add req_ptr env.url_ptr_pos)) env.path_ptr_pos))
          (probe_read_u64 m
            (ptr_add (probe_read_u64 m (ptr_add req_ptr env.url_ptr_pos))
              (ptr_add env.path_ptr_pos 8))) := by
  unfold build_http_request
  simp only
  split <;> rfl

/-! ## The record built at entry -/

/-- C6: when the request's method (respectively path) descriptor reads as pointer
`p` and length `n` and the `n` source bytes at `p` are `src`, the record holds in
`method` (respectively `path`) the first `min n 100` bytes of `src` followed by
`100 - min n 100` zero bytes; the insert is made all the same: whenever the table
has room, the record stored under the request's identity is this one. -/
theorem method_path_truncated (env : Env) (m : Mem) (req_ptr now : Nat)
    (mp mn pp pn : Nat) (msrc psrc : List Nat)
    (hmp : probe_read_u64 m (ptr_add req_ptr env.method_ptr_pos) = mp)
    (hmn : probe_read_u64 m (ptr_add req_ptr (ptr_add env.method_ptr_pos 8)) = mn)
    (hmsrc : read_bytes m mp mn = some msrc)
    (hpp : probe_read_u64 m
        (ptr_add (probe_read_u64 m (ptr_add req_ptr env.url_ptr_pos)) env.path_ptr_pos) = pp)
    (hpn : probe_read_u64 m
        (ptr_add (probe_read_u64 m (ptr_add req_ptr env.url_ptr_pos))
          (ptr_add env.path_ptr_pos 8)) = pn)
    (hpsrc : read_bytes m pp pn = some psrc) :
    msrc.length = mn ∧ psrc.length = pn
    ∧ (build_http_request env m req_ptr now).method
        = msrc.take (min mn MAX_SIZE) ++ List.replicate (MAX_SIZE - min mn MAX_SIZE) 0
    ∧ (build_http_request env m req_ptr now).path
        = psrc.take (min pn MAX_SIZE) ++ List.replicate (MAX_SIZE - min pn MAX_SIZE) 0
    ∧ ∀ s : State, s.context_to_http_events.length < MAX_CONCURRENT →
        bpf_map_lookup_elem
            (uprobe_ServerMux_ServeHTTP env m req_ptr now s).context_to_http_events
            (read_ctx_iface env m req_ptr)
          = some (build_http_request env m req_ptr now) := by
  refine ⟨read_bytes_length m mn mp msrc hmsrc, read_bytes_length m pn pp psrc hpsrc, ?_, ?_, ?_⟩
  · rw [build_method, hmp, hmn]
    exact read_field_readable m mp mn msrc hmsrc
  · rw [build_path, hpp, hpn]
    exact read_field_readable m pp pn psrc hpsrc
  · intro s hs
    exact entry_stores env m req_ptr now s (update_room _ _ _ _ hs)

/-- C7: when the reader returns a parent context `p`, the record built at entry has
`psc = p`, `sc.TraceID` equal to `p.TraceID` byte for byte, and `sc.SpanID` equal to
the bytes the random generator produced (nothing of `p.SpanID`). -/
theorem child_of_parent (env : Env) (m : Mem) (req_ptr now : Nat) (p : span_context)
    (h : (extract_context_from_req_headers env m (ptr_add req_ptr env.headers_ptr_pos)).2
      = some p)
    (hlen : p.TraceID.length = TRACE_ID_SIZE)
    (hrand : (env.generate_random_bytes SPAN_ID_SIZE).length = SPAN_ID_SIZE) :
    (build_http_request env m req_ptr now).psc = p
    ∧ (build_http_request env m req_ptr now).sc.TraceID = p.TraceID
    ∧ (build_http_request env m req_ptr now).sc.SpanID = env.generate_random_bytes SPAN_ID_SIZE := by
  unfold build_http_request
  simp only [h]
  refine ⟨trivial, ?_, ?_⟩
  · simp [copy_byte_arrays, write_into, zero_http_request, zero_span_context, ← hlen]
  · simp [write_into, zero_http_request, zero_span_context, hrand]

/-- C8: when the header map's element count reads as zero, the reader returns NULL
after its first two reads (no bucket is read), and the record built at entry is a
root record: `psc` all-zero and `sc` the value of `generate_span_context()`. -/
theorem empty_headers_root (env : Env) (m : Mem) (req_ptr now : Nat)
    (h0 : probe_read_u64 m (probe_read_u64 m (ptr_add req_ptr env.headers_ptr_pos)) = 0) :
    extract_context_from_req_headers env m (ptr_add req_ptr env.headers_ptr_pos)
      = ([Event.probe_read 8 (ptr_add req_ptr env.headers_ptr_pos),
          Event.probe_read 8 (probe_read_u64 m (ptr_add req_ptr env.headers_ptr_pos))], none)
    ∧ (∀ a, Event.probe_read_bucket a ∉
        (extract_context_from_req_headers env m (ptr_add req_ptr env.headers_ptr_pos)).1)
    ∧ (build_http_request env m req_ptr now).psc = zero_span_context
    ∧ (build_http_request env m req_ptr now).sc = env.generate_span_context := by
  have he : extract_context_from_req_headers env m (ptr_add req_ptr env.headers_ptr_pos)
      = ([Event.probe_read 8 (ptr_add req_ptr env.headers_ptr_pos),
          Event.probe_read 8 (probe_read_u64 m (ptr_add req_ptr env.headers_ptr_pos))],
         none) := by
    simp [extract_context_from_req_headers, h0]
  refine ⟨he, ?_, ?_, ?_⟩
  · intro a
    rw [he]
    simp
  · unfold build_http_request
    simp only [he]
    rfl
  · unfold build_http_request
    simp only [he]

/-! ## Lemmas on the reader -/

theorem read_bytes_lt (m : Mem) (n : Nat) :
    ∀ (a : Nat) (l : List Nat), read_bytes m a n = some l → ∀ x ∈ l, x < 256 := by
  induction n with
  | zero => intro a l h; simp [read_bytes] at h; simp [h]
  | succ n ih =>
    intro a l h
    unfold read_bytes at h
    cases hb : m.byte a with
    | none => simp [hb] at h
    | some b =>
      cases hr : read_bytes m (a + 1) n with
      | none => simp [hb, hr] at h
      | some bs =>
        simp only [hb, hr] at h
        cases h
        intro x hx
        rcases List.mem_cons.mp hx with hx | hx
        · rw [hx]; exact Nat.mod_lt _ (by norm_num)
        · exact ih (a + 1) bs hr x hx

theorem le_value_lt : ∀ l : List Nat, (∀ x ∈ l, x < 256) → le_value l < 256 ^ l.length := by
  intro l
  induction l with
  | nil => intro _; simp [le_value]
  | cons b bs ih =>
    intro h
    have hb : b < 256 := h b (List.mem_cons_self _ _)
    have hbs := ih (fun x hx => h x (List.mem_cons_of_mem _ hx))
    simp only [le_value, List.length_cons, pow_succ]
    nlinarith

theorem bpf_probe_read_length (m : Mem) (n a : Nat) : (bpf_probe_read m n a).length = n := by
  unfold bpf_probe_read
  cases h : read_bytes m a n with
  | none => simp
  | some l => simpa using read_bytes_length m n a l h

theorem probe_read_u64_lt (m : Mem) (a : Nat) : probe_read_u64 m a < U64 := by
  unfold probe_read_u64
  have hl := bpf_probe_read_length m 8 a
  have hb : ∀ x ∈ bpf_probe_read m 8 a, x < 256 := by
    unfold bpf_probe_read
    cases h : read_bytes m a 8 with
    | none =>
      intro x hx
      simp only [Option.getD_none] at hx
      rw [List.eq_of_mem_replicate hx]
      norm_num
    | some l => simpa using read_bytes_lt m 8 a l h
  have := le_value_lt _ hb
  rw [hl] at this
  simpa [U64] using this

theorem ptr_add_zero (p : Nat) (h : p < U64) : ptr_add p 0 = p := by
  simp [ptr_add, Nat.mod_eq_of_lt h]

theorem key_test (m : Mem) (p : Nat) (lit : List Nat) (hlen : lit.length = W3C_KEY_LENGTH)
    (hz : lit ≠ List.replicate W3C_KEY_LENGTH 0) :
    bpf_memcmp (bpf_probe_read m W3C_KEY_LENGTH p) lit W3C_KEY_LENGTH
      = decide (read_bytes m p W3C_KEY_LENGTH = some lit) := by
  have h1 : (bpf_probe_read m W3C_KEY_LENGTH p).take W3C_KEY_LENGTH
      = bpf_probe_read m W3C_KEY_LENGTH p :=
    List.take_of_length_le (le_of_eq (bpf_probe_read_length m _ p))
  have h2 : lit.take W3C_KEY_LENGTH = lit := List.take_of_length_le (le_of_eq hlen)
  unfold bpf_memcmp
  rw [h1, h2]
  unfold bpf_probe_read
  cases h : read_bytes m p W3C_KEY_LENGTH with
  | none =>
    simp only [Option.getD_none]
    have : ¬ (List.replicate W3C_KEY_LENGTH 0 = lit) := fun e => hz e.symm
    simp [this]
  | some l => simp

theorem key_continue (m : Mem) (b : map_bucket) (i : Nat) :
    (!bpf_memcmp (bpf_probe_read m W3C_KEY_LENGTH (b.keys i).str) traceparent_lower
        W3C_KEY_LENGTH
      && !bpf_memcmp (bpf_probe_read m W3C_KEY_LENGTH (b.keys i).str) traceparent_upper
        W3C_KEY_LENGTH) = !key_matches m b i := by
  rw [key_test m _ traceparent_lower (by decide) (by decide),
    key_test m _ traceparent_upper (by decide) (by decide)]
  simp [key_matches]

theorem value_len_test (m : Mem) (b : map_bucket) (i : Nat) :
    decide ((probe_read_go_string m (b.values i).array).len = W3C_VAL_LENGTH)
      = value_len_ok m b i := by
  unfold value_len_ok probe_read_go_string
  cases h : m.str_at (b.values i).array with
  | none => simp [W3C_VAL_LENGTH]
  | some gs => simp

/-- What a pass over the slots `l` returns: the decoding of the first slot that passes
the four tests (NULL when the span-context scratch slot is missing), or nothing when
no slot passes. -/
theorem scan_slots_ret (env : Env) (m : Mem) (b : map_bucket) :
    ∀ l : List Nat, (scan_slots env m b l).2
      = (l.find? (slot_matches m b)).map (fun i =>
          if env.parent_storage_ok = false then none
          else some (env.w3c_string_to_span_context (slot_value m b i))) := by
  intro l
  induction l with
  | nil => rfl
  | cons i rest ih =>
    rw [scan_slots]
    by_cases h1 : b.tophash i = 0
    · have hm : slot_matches m b i = false := by simp [slot_matches, h1]
      rw [if_pos h1, List.find?_cons, hm]
      exact ih
    · rw [if_neg h1]
      by_cases h2 : (b.keys i).len ≠ W3C_KEY_LENGTH
      · have hm : slot_matches m b i = false := by simp [slot_matches, h2]
        rw [if_pos h2, List.find?_cons, hm]
        exact ih
      · rw [if_neg h2]
        simp only [key_continue]
        cases h3 : key_matches m b i with
        | false =>
          have hm : slot_matches m b i = false := by simp [slot_matches, h3]
          simp only [Bool.not_false, if_true, List.find?_cons, hm]
          exact ih
        | true =>
          simp only [Bool.not_true, Bool.false_eq_true, if_false]
          have h4 := value_len_test m b i
          cases h5 : value_len_ok m b i with
          | false =>
            rw [h5] at h4
            have h6 : (probe_read_go_string m (b.values i).array).len ≠ W3C_VAL_LENGTH := by
              simpa using h4
            have hm : slot_matches m b i = false := by simp [slot_matches, h5]
            rw [if_pos h6, List.find?_cons, hm]
            exact ih
          | true =>
            rw [h5] at h4
            have h6 : ¬ (probe_read_go_string m (b.values i).array).len ≠ W3C_VAL_LENGTH := by
              simpa using h4
            have hm : slot_matches m b i = true := by
              simp only [slot_matches, h3, h5, Bool.and_true]
              simp only [ne_eq, not_not] at h2
              simp [h1, h2]
            rw [if_neg h6, List.find?_cons, hm]
            by_cases h7 : env.parent_storage_ok = false
            · simp [h7]
            · simp [h7, slot_value]

/-- The log of a pass over the slots `l`: no bucket copy; the decoder is called at
most once, on the copied value of the first slot that passes the four tests; and
when a slot passes, its value bytes were read and the span-context scratch slot
was looked up. -/
theorem scan_slots_log (env : Env) (m : Mem) (b : map_bucket) :
    ∀ l : List Nat,
      bucket_reads (scan_slots env m b l).1 = []
      ∧ decoder_calls (scan_slots env m b l).1
          = ((l.find? (slot_matches m b)).bind (fun i =>
              if env.parent_storage_ok = false then none
              else some (slot_value m b i))).toList
      ∧ ∀ i, l.find? (slot_matches m b) = some i →
          Event.probe_read W3C_VAL_LENGTH (probe_read_go_string m (b.values i).array).str
              ∈ (scan_slots env m b l).1
          ∧ Event.lookup_parent_storage ∈ (scan_slots env m b l).1 := by
  intro l
  induction l with
  | nil => simp [scan_slots, bucket_reads, decoder_calls]
  | cons i rest ih =>
    rw [scan_slots]
    by_cases h1 : b.tophash i = 0
    · have hm : slot_matches m b i = false := by simp [slot_matches, h1]
      rw [if_pos h1, List.find?_cons, hm]
      exact ih
    · rw [if_neg h1]
      by_cases h2 : (b.keys i).len ≠ W3C_KEY_LENGTH
      · have hm : slot_matches m b i = false := by simp [slot_matches, h2]
        rw [if_pos h2, List.find?_cons, hm]
        exact ih
      · rw [if_neg h2]
        simp only [key_continue]
        obtain ⟨ih1, ih2, ih3⟩ := ih
        cases h3 : key_matches m b i with
        | false =>
          have hm : slot_matches m b i = false := by simp [slot_matches, h3]
          simp only [Bool.not_false, if_true, List.find?_cons, hm]
          refine ⟨?_, ?_, ?_⟩
          · simpa [bucket_reads] using ih1
          · simpa [decoder_calls] using ih2
          · intro k hk
            obtain ⟨a1, a2⟩ := ih3 k hk
            exact ⟨List.mem_cons_of_mem _ a1, List.mem_cons_of_mem _ a2⟩
        | true =>
          simp only [Bool.not_true, Bool.false_eq_true, if_false]
          have h4 := value_len_test m b i
          cases h5 : value_len_ok m b i with
          | false =>
            rw [h5] at h4
            have h6 : (probe_read_go_string m (b.values i).array).len ≠ W3C_VAL_LENGTH := by
              simpa using h4
            have hm : slot_matches m b i = false := by simp [slot_matches, h5]
            rw [if_pos h6, List.find?_cons, hm]
            refine ⟨?_, ?_, ?_⟩
            · simpa [bucket_reads] using ih1
            · simpa [decoder_calls] using ih2
            · intro k hk
              obtain ⟨a1, a2⟩ := ih3 k hk
              exact ⟨List.mem_cons_of_mem _ (List.mem_cons_of_mem _ a1),
                List.mem_cons_of_mem _ (List.mem_cons_of_mem _ a2)⟩
          | true =>
            rw [h5] at h4
            have h6 : ¬ (probe_read_go_string m (b.values i).array).len ≠ W3C_VAL_LENGTH := by
              simpa using h4
            have hm : slot_matches m b i = true := by
              simp only [slot_matches, h3, h5, Bool.and_true]
              simp only [ne_eq, not_not] at h2
              simp [h1, h2]
            rw [if_neg h6, List.find?_cons, hm]
            by_cases h7 : env.parent_storage_ok = false
            · simp [h7, bucket_reads, decoder_calls]
            · simp [h7, bucket_reads, decoder_calls, slot_value]

/-- The shifted `int` is a single set bit, never 0. -/
theorem shl_int_pos (b : Nat) : 0 < shl_int b := by
  unfold shl_int
  rw [Nat.one_shiftLeft,
    Nat.mod_eq_of_lt (Nat.pow_lt_pow_right (by norm_num) (Nat.mod_lt b (by norm_num)))]
  exact Nat.pos_pow_of_pos _ (by norm_num)

/-- Whatever the exponent byte, the clamped bucket count is 1. -/
theorem bucket_count_one (b : Nat) :
    (if int_to_u64 (shl_int b) ≥ 2 then 1 else int_to_u64 (shl_int b)) = 1 := by
  have hp := shl_int_pos b
  have hq : 0 < int_to_u64 (shl_int b) := by
    unfold int_to_u64
    split <;> omega
  by_cases hc : int_to_u64 (shl_int b) ≥ 2
  · rw [if_pos hc]
  · rw [if_neg hc]; omega

theorem scan_buckets_one (env : Env) (m : Mem) (hb : Nat) (h : hb < U64) :
    scan_buckets env m hb 0 1
      = (Event.probe_read_bucket hb
            :: (scan_slots env m (probe_read_bucket m hb) (List.range 8)).1,
          (scan_slots env m (probe_read_bucket m hb) (List.range 8)).2.join) := by
  rw [scan_buckets]
  simp only [Nat.zero_mul, Nat.zero_mod, ptr_add_zero hb h]
  cases hs : (scan_slots env m (probe_read_bucket m hb) (List.range 8)).2 with
  | none => simp [scan_buckets]
  | some r => simp

/-- The reader on a non-empty map, with its bucket scratch slot: it copies the bucket
at offset 0 and scans its eight slots. -/
theorem extract_scan (env : Env) (m : Mem) (hpp : Nat)
    (hc : headers_count_of m hpp ≠ 0) (hs : env.bucket_storage_ok = true) :
    extract_context_from_req_headers env m hpp
      = (header_events m hpp
          ++ Event.probe_read_bucket (header_buckets_of m hpp)
            :: (scan_slots env m (first_bucket m hpp) (List.range 8)).1,
         first_bucket_result env m hpp) := by
  have hc1 : ¬ probe_read_u64 m (probe_read_u64 m hpp) = 0 := hc
  have hB1 := bucket_count_one (probe_read_u8 m (ptr_add (probe_read_u64 m hpp) 9))
  unfold extract_context_from_req_headers
  simp only [if_neg hc1, hs, Bool.true_eq_false, if_false, hB1]
  rw [scan_buckets_one env m _ (probe_read_u64_lt m _), scan_slots_ret]
  simp only [first_bucket_result, first_bucket, header_buckets_of, headers_ptr_of, header_events,
    List.cons_append, List.nil_append, Prod.mk.injEq, true_and]
  cases List.find? (slot_matches m (probe_read_bucket m
      (probe_read_u64 m (ptr_add (probe_read_u64 m hpp) 16)))) (List.range 8) with
  | none => rfl
  | some i => rfl

/-- The return value of the reader in all cases. -/
theorem extract_ret (env : Env) (m : Mem) (hpp : Nat) :
    (extract_context_from_req_headers env m hpp).2
      = if headers_count_of m hpp = 0 then none
        else if env.bucket_storage_ok = false then none
        else first_bucket_result env m hpp := by
  by_cases hc : headers_count_of m hpp = 0
  · rw [if_pos hc]
    have hc1 : probe_read_u64 m (probe_read_u64 m hpp) = 0 := hc
    simp [extract_context_from_req_headers, hc1]
  · rw [if_neg hc]
    have hc1 : ¬ probe_read_u64 m (probe_read_u64 m hpp) = 0 := hc
    by_cases hs : env.bucket_storage_ok = false
    · rw [if_pos hs]
      simp [extract_context_from_req_headers, hc1, hs]
    · rw [if_neg hs]
      have hs1 : env.bucket_storage_ok = true := by simpa using hs
      rw [extract_scan env m hpp hc hs1]

/-- The decoder calls of the reader in all cases. -/
theorem extract_decoder_calls (env : Env) (m : Mem) (hpp : Nat) :
    decoder_calls (extract_context_from_req_headers env m hpp).1
      = if headers_count_of m hpp = 0 then []
        else if env.bucket_storage_ok = false then []
        else (((List.range 8).find? (slot_matches m (first_bucket m hpp))).bind (fun i =>
            if env.parent_storage_ok = false then none
            else some (slot_value m (first_bucket m hpp) i))).toList := by
  by_cases hc : headers_count_of m hpp = 0
  · rw [if_pos hc]
    have hc1 : probe_read_u64 m (probe_read_u64 m hpp) = 0 := hc
    simp [extract_context_from_req_headers, hc1, decoder_calls]
  · rw [if_neg hc]
    have hc1 : ¬ probe_read_u64 m (probe_read_u64 m hpp) = 0 := hc
    by_cases hs : env.bucket_storage_ok = false
    · rw [if_pos hs]
      simp [extract_context_from_req_headers, hc1, hs, decoder_calls]
    · rw [if_neg hs]
      have hs1 : env.bucket_storage_ok = true := by simpa using hs
      rw [extract_scan env m hpp hc hs1]
      have h2 := (scan_slots_log env m (first_bucket m hpp) (List.range 8)).2.1
      unfold decoder_calls at h2 ⊢
      simp only [header_events, List.cons_append, List.nil_append, List.filterMap_cons]
      exact h2

/-- When no slot of the first bucket passes the four tests the reader returns NULL
and never calls the decoder. -/
theorem extract_no_match (env : Env) (m : Mem) (hpp : Nat)
    (h : ∀ j, j < 8 → slot_matches m (first_bucket m hpp) j = false) :
    (extract_context_from_req_headers env m hpp).2 = none
    ∧ decoder_calls (extract_context_from_req_headers env m hpp).1 = [] := by
  have hf : (List.range 8).find? (slot_matches m (first_bucket m hpp)) = none := by
    rw [List.find?_eq_none]
    intro x hx
    rw [h x (List.mem_range.mp hx)]
    simp
  have hr : first_bucket_result env m hpp = none := by
    simp [first_bucket_result, hf]
  constructor
  · rw [extract_ret, hr]
    simp
  · rw [extract_decoder_calls, hf]
    simp

/-- The record built at entry when the reader returns NULL. -/
theorem build_root (env : Env) (m : Mem) (req_ptr now : Nat)
    (h : (extract_context_from_req_headers env m (ptr_add req_ptr env.headers_ptr_pos)).2
      = none) :
    (build_http_request env m req_ptr now).psc = zero_span_context
    ∧ (build_http_request env m req_ptr now).sc = env.generate_span_context := by
  unfold build_http_request
  simp only [h]
  exact ⟨rfl, trivial⟩

/-! ## Malformed headers and failed reads -/

/-- C3 (as amended): when slot `k` of the first bucket has a value string whose
length is not 55 (whatever its key, "traceparent" and "Traceparent" included) and
no other slot of that bucket passes the four tests, the reader returns NULL, the
decoder is never called, and the entry probe builds the root record: `psc` all-zero
and `sc` the value of `generate_span_context()`. -/
theorem bad_length_treated_absent (env : Env) (m : Mem) (req_ptr now k : Nat)
    (hval : value_len_ok m (first_bucket m (ptr_add req_ptr env.headers_ptr_pos)) k = false)
    (hothers : ∀ j, j < 8 → j ≠ k →
      slot_matches m (first_bucket m (ptr_add req_ptr env.headers_ptr_pos)) j = false) :
    (extract_context_from_req_headers env m (ptr_add req_ptr env.headers_ptr_pos)).2 = none
    ∧ decoder_calls
        (extract_context_from_req_headers env m (ptr_add req_ptr env.headers_ptr_pos)).1 = []
    ∧ (build_http_request env m req_ptr now).psc = zero_span_context
    ∧ (build_http_request env m req_ptr now).sc = env.generate_span_context := by
  have hall : ∀ j, j < 8 →
      slot_matches m (first_bucket m (ptr_add req_ptr env.headers_ptr_pos)) j = false := by
    intro j hj
    by_cases hjk : j = k
    · subst hjk
      simp [slot_matches, hval]
    · exact hothers j hj hjk
  obtain ⟨h1, h2⟩ := extract_no_match env m _ hall
  exact ⟨h1, h2, build_root env m req_ptr now h1⟩

/-- C4 (as amended): the reader returns NULL when the element-count read fails, when
the bucket copy fails, when a scratch-slot lookup fails, or when in every slot that
is not marked empty and has key length 11 the key bytes or the value descriptor
cannot be read. -/
theorem detected_failures_absent (env : Env) (m : Mem) (hpp : Nat)
    (h : read_bytes m (headers_ptr_of m hpp) 8 = none
      ∨ m.bucket_at (header_buckets_of m hpp) = none
      ∨ env.bucket_storage_ok = false
      ∨ env.parent_storage_ok = false
      ∨ (∀ i, i < 8 → (first_bucket m hpp).tophash i ≠ 0 →
          ((first_bucket m hpp).keys i).len = W3C_KEY_LENGTH →
          read_bytes m ((first_bucket m hpp).keys i).str W3C_KEY_LENGTH = none
            ∨ m.str_at ((first_bucket m hpp).values i).array = none)) :
    (extract_context_from_req_headers env m hpp).2 = none := by
  rcases h with h | h | h | h | h
  · have hc : headers_count_of m hpp = 0 := by
      simp [headers_count_of, probe_read_u64, bpf_probe_read, h, le_value]
    rw [extract_ret, if_pos hc]
  · apply (extract_no_match env m hpp _).1
    intro j _
    simp [slot_matches, first_bucket, probe_read_bucket, h, zero_bucket]
  · rw [extract_ret]
    simp [h]
  · rw [extract_ret]
    have : first_bucket_result env m hpp = none := by
      unfold first_bucket_result
      cases (List.range 8).find? (slot_matches m (first_bucket m hpp)) with
      | none => rfl
      | some i => simp [h]
    simp [this]
  · apply (extract_no_match env m hpp _).1
    intro j hj
    by_cases h1 : (first_bucket m hpp).tophash j = 0
    · simp [slot_matches, h1]
    · by_cases h2 : ((first_bucket m hpp).keys j).len = W3C_KEY_LENGTH
      · rcases h j hj h1 h2 with h3 | h3
        · simp [slot_matches, key_matches, h3]
        · simp [slot_matches, value_len_ok, h3]
      · simp [slot_matches, h2]

/-! ## The first bucket -/

theorem find_congr (p q : Nat → Bool) :
    ∀ l : List Nat, (∀ x ∈ l, p x = q x) → l.find? p = l.find? q := by
  intro l
  induction l with
  | nil => intro _; rfl
  | cons a rest ih =>
    intro h
    rw [List.find?_cons, List.find?_cons, h a (List.mem_cons_self _ _),
      ih (fun x hx => h x (List.mem_cons_of_mem _ hx))]

theorem find_range_none (p : Nat → Bool) (n : Nat) (h : ∀ j, j < n → p j = false) :
    (List.range n).find? p = none := by
  rw [List.find?_eq_none]
  intro x hx
  rw [h x (List.mem_range.mp hx)]
  simp

theorem find_range_least (p : Nat → Bool) :
    ∀ n i : Nat, i < n → p i = true → (∀ j, j < i → p j = false) →
      (List.range n).find? p = some i := by
  intro n
  induction n with
  | zero => intro i hi; omega
  | succ n ih =>
    intro i hi hp hmin
    rw [List.range_succ, List.find?_append]
    by_cases hin : i < n
    · rw [ih i hin hp hmin]
      rfl
    · have hieq : i = n := by omega
      subst hieq
      rw [find_range_none p i hmin]
      simp [List.find?_cons, hp]

theorem find_range_some (p : Nat → Bool) (n i : Nat) (h : (List.range n).find? p = some i) :
    i < n ∧ p i = true :=
  ⟨List.mem_range.mp (List.mem_of_find?_eq_some h), List.find?_some h⟩

/-- The scan of the first bucket depends on memory only through the bucket and the
keys, value descriptors and value bytes its slots point to. -/
theorem first_bucket_result_congr (env : Env) (m1 m2 : Mem) (hpp : Nat)
    (hbucket : first_bucket m2 hpp = first_bucket m1 hpp)
    (hkeys : ∀ i, i < 8 →
      read_bytes m2 ((first_bucket m1 hpp).keys i).str W3C_KEY_LENGTH
        = read_bytes m1 ((first_bucket m1 hpp).keys i).str W3C_KEY_LENGTH)
    (hdesc : ∀ i, i < 8 →
      m2.str_at ((first_bucket m1 hpp).values i).array
        = m1.str_at ((first_bucket m1 hpp).values i).array)
    (hvals : ∀ i, i < 8 → ∀ gs, m1.str_at ((first_bucket m1 hpp).values i).array = some gs →
      read_bytes m2 gs.str W3C_VAL_LENGTH = read_bytes m1 gs.str W3C_VAL_LENGTH) :
    first_bucket_result env m2 hpp = first_bucket_result env m1 hpp := by
  have hm : ∀ x ∈ List.range 8,
      slot_matches m2 (first_bucket m1 hpp) x = slot_matches m1 (first_bucket m1 hpp) x := by
    intro x hx
    have hx8 := List.mem_range.mp hx
    simp only [slot_matches, key_matches, value_len_ok, hkeys x hx8, hdesc x hx8]
  unfold first_bucket_result
  rw [hbucket, find_congr _ _ _ hm]
  cases hf : (List.range 8).find? (slot_matches m1 (first_bucket m1 hpp)) with
  | none => rfl
  | some i =>
    obtain ⟨hi, hp⟩ := find_range_some _ _ _ hf
    have hv : value_len_ok m1 (first_bucket m1 hpp) i = true := by
      simp only [slot_matches, Bool.and_eq_true] at hp
      exact hp.2
    have hsv : slot_value m2 (first_bucket m1 hpp) i = slot_value m1 (first_bucket m1 hpp) i := by
      unfold value_len_ok at hv
      cases hd : m1.str_at ((first_bucket m1 hpp).values i).array with
      | none => simp [hd] at hv
      | some gs =>
        simp only [slot_value, probe_read_go_string, bpf_probe_read, hdesc i hi, hd,
          Option.getD_some, hvals i hi gs hd]
    simp [hsv]

/-- C9 (as amended): for every value of the bucket-count exponent byte and every
non-empty header map, the reader, once it has its bucket scratch slot, copies exactly
one bucket, the one at offset 0 from the buckets pointer; and two such memory states
that agree on the buckets pointer, on that first bucket and on the key bytes, value
descriptors and value bytes its slots point to give the same result, whatever the
other buckets hold and whatever the two exponent bytes are. -/
theorem first_bucket_only (env : Env) (m1 m2 : Mem) (hpp : Nat)
    (hc1 : headers_count_of m1 hpp ≠ 0)
    (hc2 : headers_count_of m2 hpp ≠ 0)
    (hbuckets : header_buckets_of m2 hpp = header_buckets_of m1 hpp)
    (hbucket : first_bucket m2 hpp = first_bucket m1 hpp)
    (hkeys : ∀ i, i < 8 →
      read_bytes m2 ((first_bucket m1 hpp).keys i).str W3C_KEY_LENGTH
        = read_bytes m1 ((first_bucket m1 hpp).keys i).str W3C_KEY_LENGTH)
    (hdesc : ∀ i, i < 8 →
      m2.str_at ((first_bucket m1 hpp).values i).array
        = m1.str_at ((first_bucket m1 hpp).values i).array)
    (hvals : ∀ i, i < 8 → ∀ gs, m1.str_at ((first_bucket m1 hpp).values i).array = some gs →
      read_bytes m2 gs.str W3C_VAL_LENGTH = read_bytes m1 gs.str W3C_VAL_LENGTH) :
    (env.bucket_storage_ok = true →
      bucket_reads (extract_context_from_req_headers env m1 hpp).1 = [header_buckets_of m1 hpp]
      ∧ bucket_reads (extract_context_from_req_headers env m2 hpp).1
          = [header_buckets_of m1 hpp])
    ∧ (extract_context_from_req_headers env m2 hpp).2
        = (extract_context_from_req_headers env m1 hpp).2 := by
  have hlog : ∀ m : Mem, bucket_reads
      (header_events m hpp ++ Event.probe_read_bucket (header_buckets_of m hpp)
        :: (scan_slots env m (first_bucket m hpp) (List.range 8)).1)
      = [header_buckets_of m hpp] := by
    intro m
    have h1 := (scan_slots_log env m (first_bucket m hpp) (List.range 8)).1
    unfold bucket_reads at h1 ⊢
    simp only [header_events, List.cons_append, List.nil_append, List.filterMap_cons, h1]
  constructor
  · intro hs
    rw [extract_scan env m1 hpp hc1 hs, extract_scan env m2 hpp hc2 hs]
    refine ⟨hlog m1, ?_⟩
    rw [← hbuckets]
    exact hlog m2
  · rw [extract_ret, extract_ret, if_neg hc1, if_neg hc2,
      first_bucket_result_congr env m1 m2 hpp hbucket hkeys hdesc hvals]

theorem lookup_bucket_storage_logged (env : Env) (m : Mem) (hpp : Nat)
    (hc : headers_count_of m hpp ≠ 0) :
    Event.lookup_bucket_storage ∈ (extract_context_from_req_headers env m hpp).1 := by
  have hc1 : ¬ probe_read_u64 m (probe_read_u64 m hpp) = 0 := hc
  unfold extract_context_from_req_headers
  simp only [if_neg hc1]
  by_cases hs : env.bucket_storage_ok = false
  · simp [hs]
  · simp [hs]

/-- C10: for a non-empty header map, all of the reader's steps succeeding, the reader
returns a parent context exactly when some slot `i < 8` of the first bucket is not
marked empty, has key length 11, key bytes "traceparent" or "Traceparent" and a value
string of length 55; and then the result is the decoding of the 55 value bytes of the
lowest-indexed such slot, so that a slot failing one of the four tests contributes
nothing. -/
theorem first_match_decoded (env : Env) (m : Mem) (hpp : Nat)
    (hc : headers_count_of m hpp ≠ 0)
    (hok : ∀ e ∈ (extract_context_from_req_headers env m hpp).1, step_ok env m e = true) :
    ∃ b : map_bucket, m.bucket_at (header_buckets_of m hpp) = some b
      ∧ ((extract_context_from_req_headers env m hpp).2.isSome = true
          ↔ ∃ i, i < 8 ∧ slot_matches m b i = true)
      ∧ ∀ i, i < 8 → slot_matches m b i = true → (∀ j, j < i → slot_matches m b j = false) →
          ∃ (gs : go_string) (v : List Nat),
            m.str_at (b.values i).array = some gs ∧ gs.len = W3C_VAL_LENGTH
            ∧ read_bytes m gs.str W3C_VAL_LENGTH = some v
            ∧ (extract_context_from_req_headers env m hpp).2
                = some (env.w3c_string_to_span_context v) := by
  have hs : env.bucket_storage_ok = true :=
    hok _ (lookup_bucket_storage_logged env m hpp hc)
  have hex := extract_scan env m hpp hc hs
  rw [hex] at hok ⊢
  simp only at hok ⊢
  have hbr : (m.bucket_at (header_buckets_of m hpp)).isSome = true :=
    hok (Event.probe_read_bucket (header_buckets_of m hpp)) (by simp)
  cases hb : m.bucket_at (header_buckets_of m hpp) with
  | none => simp [hb] at hbr
  | some b =>
    have hfb : first_bucket m hpp = b := by
      simp [first_bucket, probe_read_bucket, hb]
    rw [hfb] at hok
    have hhit : ∀ i, (List.range 8).find? (slot_matches m b) = some i →
        ∃ (gs : go_string) (v : List Nat),
          m.str_at (b.values i).array = some gs ∧ gs.len = W3C_VAL_LENGTH
          ∧ read_bytes m gs.str W3C_VAL_LENGTH = some v
          ∧ first_bucket_result env m hpp = some (env.w3c_string_to_span_context v) := by
      intro i hf
      obtain ⟨_, hp⟩ := find_range_some _ _ _ hf
      obtain ⟨hmem1, hmem2⟩ := (scan_slots_log env m b (List.range 8)).2.2 i hf
      have hpar : env.parent_storage_ok = true :=
        hok Event.lookup_parent_storage
          (List.mem_append_right _ (List.mem_cons_of_mem _ hmem2))
      have hrd : (read_bytes m (probe_read_go_string m (b.values i).array).str
          W3C_VAL_LENGTH).isSome = true :=
        hok _ (List.mem_append_right _ (List.mem_cons_of_mem _ hmem1))
      have hv : value_len_ok m b i = true := by
        simp only [slot_matches, Bool.and_eq_true] at hp
        exact hp.2
      unfold value_len_ok at hv
      cases hd : m.str_at (b.values i).array with
      | none => simp [hd] at hv
      | some gs =>
        simp only [hd, decide_eq_true_eq] at hv
        simp only [probe_read_go_string, hd, Option.getD_some] at hrd
        cases hr : read_bytes m gs.str W3C_VAL_LENGTH with
        | none => simp [hr] at hrd
        | some v =>
          refine ⟨gs, v, rfl, hv, hr, ?_⟩
          simp [first_bucket_result, hfb, hf, hpar, slot_value, probe_read_go_string, hd,
            bpf_probe_read, hr]
    refine ⟨b, rfl, ?_, ?_⟩
    · constructor
      · intro hsome
        cases hf : (List.range 8).find? (slot_matches m b) with
        | none => simp [first_bucket_result, hfb, hf] at hsome
        | some i =>
          obtain ⟨hi, hp⟩ := find_range_some _ _ _ hf
          exact ⟨i, hi, hp⟩
      · rintro ⟨i, hi, hp⟩
        cases hf : (List.range 8).find? (slot_matches m b) with
        | none =>
          rw [List.find?_eq_none] at hf
          exact absurd hp (hf i (List.mem_range.mpr hi))
        | some i0 =>
          obtain ⟨gs, v, _, _, _, hres⟩ := hhit i0 hf
          simp [hres]
    · intro i hi hp hmin
      exact hhit i (find_range_least _ 8 i hi hp hmin)

/-! ## Sample runs -/

set_option maxRecDepth 20000

/-- C1 on a sample run: entry at time 1000 into the empty table, return at 2000. -/
theorem begin_end_roundtrip_witness :
    (uprobe_ServerMux_ServeHTTP_Returns env0 (sample_mem 0) 4096 2000
        (uprobe_ServerMux_ServeHTTP env0 (sample_mem 0) 4096 1000 empty_state)).events
      = (uprobe_ServerMux_ServeHTTP env0 (sample_mem 0) 4096 1000 empty_state).events
          ++ [{ build_http_request env0 (sample_mem 0) 4096 1000 with end_time := 2000 }] :=
  (begin_end_roundtrip env0 (sample_mem 0) (sample_mem 0) (sample_mem 0) 4096 4096 4096
    1000 2000 3000 empty_state (by decide) rfl rfl).1

/-- C2 on a sample run: the request with identity 77 arrives at a table holding the
fifty keys 1000 .. 1049. -/
theorem full_table_insert_fails_witness :
    full_state.context_to_http_events.length = MAX_CONCURRENT
    ∧ (uprobe_ServerMux_ServeHTTP env0 (sample_mem 0) 4096 1000
        full_state).context_to_http_events = full_state.context_to_http_events :=
  ⟨by decide,
   (full_table_insert_fails env0 (sample_mem 0) (sample_mem 0) 4096 4096 1000 2000 full_state
    (by decide) (by decide) rfl).2.1⟩

/-- C5 on a sample run: a return probe on the empty table. -/
theorem miss_emits_zero_record_witness :
    ∃ r : http_request_t,
      (uprobe_ServerMux_ServeHTTP_Returns env0 (sample_mem 0) 4096 2000 empty_state).events
        = empty_state.events ++ [r]
      ∧ r.start_time = 0
      ∧ r.method = List.replicate MAX_SIZE 0
      ∧ r.path = List.replicate MAX_SIZE 0
      ∧ r.sc = zero_span_context
      ∧ r.psc = zero_span_context
      ∧ r.end_time = 2000 :=
  miss_emits_zero_record env0 (sample_mem 0) 4096 2000 empty_state rfl

/-- C6 on a sample run: a 120-byte method is cut to 100 bytes, a 2-byte path is kept
and padded. -/
theorem method_path_truncated_witness :
    (build_http_request env0 (sample_mem 0) 4096 1000).method = List.replicate 100 65
    ∧ (build_http_request env0 (sample_mem 0) 4096 1000).path
        = [47, 120] ++ List.replicate 98 0 := by
  have h := method_path_truncated env0 (sample_mem 0) 4096 1000 28672 120 36864 2
    (List.replicate 120 65) [47, 120] (by decide) (by decide) (by decide) (by decide)
    (by decide) (by decide)
  exact ⟨h.2.2.1, h.2.2.2.1⟩

/-- C7 on a sample run: the sample request carries a 55-byte traceparent value. -/
theorem child_of_parent_witness :
    (build_http_request env0 (sample_mem 0) 4096 1000).psc = sample_parent
    ∧ (build_http_request env0 (sample_mem 0) 4096 1000).sc.TraceID = sample_parent.TraceID
    ∧ (build_http_request env0 (sample_mem 0) 4096 1000).sc.SpanID
        = env0.generate_random_bytes SPAN_ID_SIZE :=
  child_of_parent env0 (sample_mem 0) 4096 1000 sample_parent (by decide) (by decide)
    (by decide)

/-- C8 on a sample run: a header map with element count zero. -/
theorem empty_headers_root_witness :
    (extract_context_from_req_headers env0 empty_map_mem
        (ptr_add 4096 env0.headers_ptr_pos)).2 = none
    ∧ (build_http_request env0 empty_map_mem 4096 1000).sc = env0.generate_span_context := by
  have h := empty_headers_root env0 empty_map_mem 4096 1000 (by decide)
  exact ⟨by rw [h.1], h.2.2.2⟩

/-- C3 on a sample run: the only used slot holds "traceparent" with a 10-byte value. -/
theorem bad_length_treated_absent_witness :
    key_matches short_mem (first_bucket short_mem (ptr_add 4096 env0.headers_ptr_pos)) 0 = true
    ∧ (extract_context_from_req_headers env0 short_mem
        (ptr_add 4096 env0.headers_ptr_pos)).2 = none
    ∧ (build_http_request env0 short_mem 4096 1000).sc = env0.generate_span_context := by
  have h := bad_length_treated_absent env0 short_mem 4096 1000 0 (by decide) (by decide)
  exact ⟨by decide, h.1, h.2.2.2⟩

/-- C4 on a sample run: the bucket copy fails. -/
theorem detected_failures_absent_witness :
    (extract_context_from_req_headers env0 no_bucket_mem 4136).2 = none :=
  detected_failures_absent env0 no_bucket_mem 4136 (Or.inr (Or.inl rfl))

/-- C9 on a sample run: exponent byte 0 and no other bucket against exponent byte 255
and a second bucket that holds both spellings of the key. -/
theorem first_bucket_only_witness :
    bucket_reads (extract_context_from_req_headers env0 two_bucket_mem 4136).1 = [12288]
    ∧ (extract_context_from_req_headers env0 two_bucket_mem 4136).2
        = (extract_context_from_req_headers env0 (sample_mem 0) 4136).2 := by
  have hv : ∀ i, i < 8 → ∀ gs,
      (sample_mem 0).str_at ((first_bucket (sample_mem 0) 4136).values i).array = some gs →
      read_bytes two_bucket_mem gs.str W3C_VAL_LENGTH
        = read_bytes (sample_mem 0) gs.str W3C_VAL_LENGTH := by
    intro i hi gs hgs
    have hfb : first_bucket (sample_mem 0) 4136 = bucket_single := by
      have h12 : header_buckets_of (sample_mem 0) 4136 = 12288 := by decide
      unfold first_bucket probe_read_bucket
      rw [h12]
      rfl
    rw [hfb] at hgs
    by_cases h0 : i = 0
    · subst h0
      have hgs2 : gs = { str := 24576, len := 55 } := by
        simp [bucket_single, sample_mem, mk_mem] at hgs
        exact hgs.symm
      subst hgs2
      decide
    · simp [bucket_single, h0, sample_mem, mk_mem] at hgs
  have h := first_bucket_only env0 (sample_mem 0) two_bucket_mem 4136 (by decide)
    (by decide) (by decide)
    (by
      have h12 : header_buckets_of (sample_mem 0) 4136 = 12288 := by decide
      have h12b : header_buckets_of two_bucket_mem 4136 = 12288 := by decide
      unfold first_bucket probe_read_bucket
      rw [h12, h12b]
      rfl)
    (by decide) (by decide) hv
  exact ⟨(h.1 rfl).2, h.2⟩

/-- C10 on a sample run with exponent byte 255: slot 0 of the first bucket passes the
four tests and the result is the decoding of its 55 value bytes. -/
theorem first_match_decoded_witness :
    log_2_bucket_count_of (sample_mem 255) 4136 = 255
    ∧ ∃ b : map_bucket,
      (sample_mem 255).bucket_at (header_buckets_of (sample_mem 255) 4136) = some b
      ∧ ((extract_context_from_req_headers env0 (sample_mem 255) 4136).2.isSome = true
          ↔ ∃ i, i < 8 ∧ slot_matches (sample_mem 255) b i = true)
      ∧ ∀ i, i < 8 → slot_matches (sample_mem 255) b i = true →
          (∀ j, j < i → slot_matches (sample_mem 255) b j = false) →
          ∃ (gs : go_string) (v : List Nat),
            (sample_mem 255).str_at (b.values i).array = some gs ∧ gs.len = W3C_VAL_LENGTH
            ∧ read_bytes (sample_mem 255) gs.str W3C_VAL_LENGTH = some v
            ∧ (extract_context_from_req_headers env0 (sample_mem 255) 4136).2
                = some (env0.w3c_string_to_span_context v) :=
  ⟨by decide, first_match_decoded env0 (sample_mem 255) 4136 (by decide) (by decide)⟩

/-! ## Where the statements as first written fail -/

/-- C3, as first written, fails: with "traceparent" carrying a 10-byte value in slot 0
and "Traceparent" carrying a 55-byte value in slot 1, the reader does not return
NULL; it returns the decoding of the value of slot 1. -/
theorem bad_length_other_spelling_found :
    (first_bucket pair_mem 4136).tophash 0 ≠ 0
    ∧ ((first_bucket pair_mem 4136).keys 0).len = W3C_KEY_LENGTH
    ∧ read_bytes pair_mem ((first_bucket pair_mem 4136).keys 0).str W3C_KEY_LENGTH
        = some traceparent_lower
    ∧ pair_mem.str_at ((first_bucket pair_mem 4136).values 0).array
        = some { str := 24576, len := 10 }
    ∧ (extract_context_from_req_headers env0 pair_mem 4136).2 = some sample_parent
    ∧ (build_http_request env0 pair_mem 4096 1000).psc ≠ zero_span_context := by
  decide

/-- C4, as first written, fails: a failed read of the value bytes, of the exponent
byte or of the key bytes of one slot is a failed step of the reader, and in each of
the three sample memories the reader still returns a span context; after the failed
value read it is the decoding of 55 zero bytes. -/
theorem failed_read_not_absent :
    (Event.probe_read 55 24576 ∈ (extract_context_from_req_headers env0 no_value_mem 4136).1
      ∧ step_ok env0 no_value_mem (Event.probe_read 55 24576) = false
      ∧ (extract_context_from_req_headers env0 no_value_mem 4136).2
          = some (env0.w3c_string_to_span_context (List.replicate 55 0)))
    ∧ (Event.probe_read 1 8201 ∈ (extract_context_from_req_headers env0 no_exponent_mem 4136).1
      ∧ step_ok env0 no_exponent_mem (Event.probe_read 1 8201) = false
      ∧ (extract_context_from_req_headers env0 no_exponent_mem 4136).2 = some sample_parent)
    ∧ (Event.probe_read 11 99999 ∈ (extract_context_from_req_headers env0 no_key_mem 4136).1
      ∧ step_ok env0 no_key_mem (Event.probe_read 11 99999) = false
      ∧ (extract_context_from_req_headers env0 no_key_mem 4136).2 = some sample_parent) := by
  decide

/-- C9, as first written, fails. Two memories with the same map header and the same
first bucket, differing only in the bytes the key of slot 0 points to, give
different results: the result depends on the strings the slots point to, which lie
outside the bucket. And when the lookup of the bucket scratch slot returns NULL the
reader returns before any bucket copy, on a non-empty map too. -/
theorem pointed_strings_change_result :
    (read_bytes other_key_mem 8192 24 = read_bytes (sample_mem 0) 8192 24
      ∧ other_key_mem.bucket_at = (sample_mem 0).bucket_at
      ∧ (extract_context_from_req_headers env0 other_key_mem 4136).2 = none
      ∧ (extract_context_from_req_headers env0 (sample_mem 0) 4136).2 = some sample_parent)
    ∧ (headers_count_of (sample_mem 0) 4136 ≠ 0
      ∧ bucket_reads
          (extract_context_from_req_headers env_no_bucket_slot (sample_mem 0) 4136).1 = []) :=
  ⟨⟨by decide, rfl, by decide, by decide⟩, by decide, by decide⟩

end HttpServerProbe
